import Mathlib

/-!
Verification of the playback timing and play-along synchronization engine of
the NeothesiaFork playing scene (src/scene/playing_scene/mod.rs).

Times, speed multipliers and offsets are embedded as rationals.  The scene
module itself (gating, settings input, progress bar, event routing) is
translated directly from src/scene/playing_scene/mod.rs.  The midi_player,
keyboard_events and toast_manager submodules are declared there but their
files are not part of the source tree, so those operations are modelled from
the specification; each such definition carries a doc comment saying so.
-/

/-- Kind of a raw MIDI file event. -/
inductive EventKind
  | noteOn
  | noteOff
  deriving DecidableEq, Repr, Inhabited

/-- An ordered record of the immutable, time-ascending MIDI event sequence. -/
structure RawEvent where
  time : ℚ
  kind : EventKind
  key : ℕ
  track : ℕ
  deriving DecidableEq, Repr, Inhabited

/-- Source of a key press report, as in midi_player::KeyPressSource. -/
inductive KeyPressSource
  | User
  | File
  deriving DecidableEq, Repr

/-- Modelled from the spec: the play-along gate state of the missing
midi_player module.  KeyPressState maps each key to a per-source pressed
flag; required_keys is the RequiredKeySet rebuilt when the cursor moves. -/
structure PlayAlong where
  required_keys : List ℕ
  pressedUser : ℕ → Bool
  pressedFile : ℕ → Bool

/-- Modelled from the spec: press_key(source, key, is_down) updates
KeyPressState for that source and key, touching nothing else. -/
def press_key (pa : PlayAlong) (src : KeyPressSource) (key : ℕ) (isDown : Bool) :
    PlayAlong :=
  match src with
  | .User => { pa with pressedUser := fun k => if k = key then isDown else pa.pressedUser k }
  | .File => { pa with pressedFile := fun k => if k = key then isDown else pa.pressedFile k }

/-- Modelled from the spec: a key is effectively pressed when any source
reports it down (logical OR across sources). -/
def effectivelyPressed (pa : PlayAlong) (k : ℕ) : Bool :=
  pa.pressedUser k || pa.pressedFile k

/-- Modelled from the spec: true when every currently required key is
effectively pressed (vacuously when the required set is empty). -/
def are_required_keys_pressed (pa : PlayAlong) : Bool :=
  pa.required_keys.all (effectivelyPressed pa)

/-- PlaybackConfig fields read by the scene, named as in the source. -/
structure Config where
  play_along : Bool
  speed_multiplier : ℚ
  playback_offset : ℚ
  deriving DecidableEq, Repr

/-- Modelled from the spec: the state of the missing midi_player module.
The clock time is the raw monotonic counter including lead-in; the cursor
marks the first event not yet dispatched. -/
structure MidiPlayer where
  events : List RawEvent
  cursor : ℕ
  time : ℚ
  leadIn : ℚ
  paused : Bool
  playAlong : PlayAlong

/-- Modelled from the spec: total_duration is the time of the last RawEvent. -/
def totalDuration (events : List RawEvent) : ℚ :=
  ((events.getLast?).map RawEvent.time).getD 0

/-- Modelled from the spec: song time minus lead-in, clamped at zero. -/
def MidiPlayer.time_without_lead_in (p : MidiPlayer) : ℚ :=
  max (p.time - p.leadIn) 0

/-- Modelled from the spec: committed time divided by total duration, used by
the progress bar. -/
def MidiPlayer.percentage (p : MidiPlayer) : ℚ :=
  p.time_without_lead_in / totalDuration p.events

/-- Modelled from the spec: the events that became due since the last tick,
in file order, starting at the cursor. -/
def eventsDue (events : List RawEvent) (cursor : ℕ) (t : ℚ) : List RawEvent :=
  (events.drop cursor).takeWhile (fun e => decide (e.time ≤ t))

/-- Modelled from the spec: the RequiredKeySet is the set of keys whose
NoteOn event time equals the next due instant after the cursor. -/
def lookaheadRequired (events : List RawEvent) (cursor : ℕ) : List ℕ :=
  match (events.drop cursor).find? (fun e => e.kind == EventKind.noteOn) with
  | none => []
  | some e0 =>
      ((events.drop cursor).filter
        (fun e => e.kind == EventKind.noteOn && decide (e.time = e0.time))).map RawEvent.key

/-- Modelled from the spec: the gate permits advancement when play-along is
disabled, the required set is empty, or every required key is pressed. -/
def gateOpen (playAlongEnabled : Bool) (pa : PlayAlong) : Bool :=
  !playAlongEnabled || are_required_keys_pressed pa

/-- Modelled from the spec: MidiPlayer::update, the per-tick contract of the
missing midi_player module.  The clock advances by the wall delta scaled by
the speed multiplier, bounded by the gate (zero when blocked); when paused
the tick is a no-op returning an empty batch; past end-of-file it returns
none.  The playback offset is never read here. -/
def MidiPlayer.update (p : MidiPlayer) (cfg : Config) (delta : ℚ) :
    MidiPlayer × Option (List RawEvent) :=
  if p.paused then (p, some [])
  else if totalDuration p.events < p.time_without_lead_in then (p, none)
  else
    let adv := if gateOpen cfg.play_along p.playAlong then delta * cfg.speed_multiplier else 0
    let tNew := p.time + adv
    let songTime := max (tNew - p.leadIn) 0
    let due := eventsDue p.events p.cursor songTime
    ({ p with
        time := tNew,
        cursor := p.cursor + due.length,
        playAlong :=
          { p.playAlong with
              required_keys := lookaheadRequired p.events (p.cursor + due.length) } },
      some due)

/-- Held-note highlighting state of the keyboard renderer. -/
structure KeyboardState where
  held : List ℕ
  deriving DecidableEq, Repr

/-- Modelled from the spec: keyboard_events::file_midi_events applies a batch
of due file events to the keyboard highlighting. -/
def file_midi_events (kb : KeyboardState) (evs : List RawEvent) : KeyboardState :=
  evs.foldl
    (fun kb e =>
      match e.kind with
      | .noteOn => { held := if kb.held.contains e.key then kb.held else e.key :: kb.held }
      | .noteOff => { held := kb.held.filter (fun k => decide (k ≠ e.key)) })
    kb

/-- Reset of the keyboard renderer highlighting to idle, as reset_notes. -/
def reset_notes (_kb : KeyboardState) : KeyboardState := { held := [] }

/-- A quad instance as sent to the quad pipeline; only position and size are
relevant to the claims. -/
structure QuadInstance where
  position : ℚ × ℚ
  size : ℚ × ℚ
  deriving DecidableEq, Repr

/-- Translated from update_progresbar in src/scene/playing_scene/mod.rs: a
single quad at the origin, window width times percentage wide, 5 tall. -/
def update_progresbar (windowWidth : ℚ) (p : MidiPlayer) : List QuadInstance :=
  [{ position := (0, 0), size := (windowWidth * p.percentage, 5) }]

/-- Scene state mutated by the per-frame update. -/
structure SceneState where
  player : MidiPlayer
  keyboard : KeyboardState

/-- Observable effects of one call to PlayingScene::update. -/
structure UpdateTrace where
  playerUpdated : Bool
  dispatched : Option (List RawEvent)
  progressQuads : List QuadInstance
  notesTime : ℚ
  keyboardRendererUpdated : Bool
  toastManagerUpdated : Bool

/-- Translated from the gated branch of PlayingScene::update: when the gate
is open the player is updated and its events dispatched to the keyboard, a
none result resetting the highlighting instead; when closed nothing runs. -/
def gatedStep (cfg : Config) (s : SceneState) (delta : ℚ) :
    MidiPlayer × KeyboardState × Option (List RawEvent) :=
  if are_required_keys_pressed s.player.playAlong || !cfg.play_along then
    match s.player.update cfg delta with
    | (p, some evs) => (p, file_midi_events s.keyboard evs, some evs)
    | (p, none) => (p, reset_notes s.keyboard, none)
  else (s.player, s.keyboard, none)

/-- Translated from PlayingScene::update in src/scene/playing_scene/mod.rs:
the gated player step, then unconditionally the progress bar, the waterfall
at time_without_lead_in plus the playback offset, the keyboard renderer and
the toast manager. -/
def sceneUpdate (cfg : Config) (windowWidth : ℚ) (s : SceneState) (delta : ℚ) :
    SceneState × UpdateTrace :=
  let step := gatedStep cfg s delta
  ({ player := step.1, keyboard := step.2.1 },
    { playerUpdated := are_required_keys_pressed s.player.playAlong || !cfg.play_along,
      dispatched := step.2.2,
      progressQuads := update_progresbar windowWidth step.1,
      notesTime := step.1.time_without_lead_in + cfg.playback_offset,
      keyboardRendererUpdated := true,
      toastManagerUpdated := true })

/-- An incoming user MIDI event, as crate::midi_event::MidiEvent. -/
inductive MidiEvent
  | noteOn (channel : ℕ) (key : ℕ)
  | noteOff (channel : ℕ) (key : ℕ)
  deriving DecidableEq, Repr

/-- Observable effects of one call to PlayingScene::midi_event. -/
structure MidiEventTrace where
  pressKeyCalls : List (KeyPressSource × ℕ × Bool)

/-- Modelled from the spec: keyboard_events::user_midi_event paints live user
input on the keyboard renderer. -/
def user_midi_event (kb : KeyboardState) (e : MidiEvent) : KeyboardState :=
  match e with
  | .noteOn _ k => { held := if kb.held.contains k then kb.held else k :: kb.held }
  | .noteOff _ k => { held := kb.held.filter (fun x => decide (x ≠ k)) }

/-- Translated from PlayingScene::midi_event in src/scene/playing_scene/mod.rs:
NoteOn and NoteOff are forwarded to press_key with the User source, then the
event is forwarded to the keyboard renderer. -/
def midi_event (s : SceneState) (e : MidiEvent) : SceneState × MidiEventTrace :=
  match e with
  | .noteOn _ key =>
      ({ player := { s.player with playAlong := press_key s.player.playAlong .User key true },
          keyboard := user_midi_event s.keyboard e },
        { pressKeyCalls := [(KeyPressSource.User, key, true)] })
  | .noteOff _ key =>
      ({ player := { s.player with playAlong := press_key s.player.playAlong .User key false },
          keyboard := user_midi_event s.keyboard e },
        { pressKeyCalls := [(KeyPressSource.User, key, false)] })

/-- Element state of a winit keyboard input. -/
inductive ElementState
  | Pressed
  | Released
  deriving DecidableEq, Repr

/-- The virtual keycodes handled by settings_keyboard_input, plus a catch-all. -/
inductive VirtualKeyCode
  | Up
  | Down
  | Minus
  | Plus
  | Equals
  | Escape
  | Space
  | Other
  deriving DecidableEq, Repr

/-- A winit KeyboardInput restricted to the fields the scene reads. -/
structure KeyboardInput where
  state : ElementState
  virtual_keycode : Option VirtualKeyCode
  deriving DecidableEq, Repr

/-- A toast emitted through the toast manager. -/
inductive Toast
  | speed_toast (value : ℚ)
  | offset_toast (value : ℚ)
  deriving DecidableEq, Repr

/-- Translated from settings_keyboard_input in src/scene/playing_scene/mod.rs:
on key release, Up and Down adjust the speed multiplier (floored at zero on
Down), Minus, Plus and Equals adjust the playback offset, the step depending
on the Shift modifier; every mutation emits a toast. -/
def settings_keyboard_input (shift : Bool) (cfg : Config) (input : KeyboardInput) :
    Config × Option Toast :=
  if input.state ≠ ElementState.Released then (cfg, none)
  else
    match input.virtual_keycode with
    | none => (cfg, none)
    | some vk =>
      match vk with
      | .Up | .Down =>
          let amount : ℚ := if shift then 1/2 else 1/10
          let speed :=
            if vk = VirtualKeyCode.Up then cfg.speed_multiplier + amount
            else max (cfg.speed_multiplier - amount) 0
          ({ cfg with speed_multiplier := speed }, some (Toast.speed_toast speed))
      | .Minus | .Plus | .Equals =>
          let amount : ℚ := if shift then 1/10 else 1/100
          let off :=
            if vk = VirtualKeyCode.Minus then cfg.playback_offset - amount
            else cfg.playback_offset + amount
          ({ cfg with playback_offset := off }, some (Toast.offset_toast off))
      | _ => (cfg, none)

/-- A sequence of settings inputs applied in order, each with its own Shift
modifier state. -/
def settingsRun (cfg : Config) (inputs : List (Bool × KeyboardInput)) : Config :=
  inputs.foldl (fun c si => (settings_keyboard_input si.1 c si.2).1) cfg

/-- Time of the event at a given index, with a default past the end. -/
def timeAt (events : List RawEvent) (i : ℕ) : ℚ :=
  (events.getD i default).time

/-- Modelled from the spec: binary search over the immutable event sequence
for the first index in the interval whose event time exceeds the target. -/
def bsearchGT (events : List RawEvent) (target : ℚ) (lo hi : ℕ) : ℕ :=
  if h : lo < hi then
    if timeAt events ((lo + hi) / 2) ≤ target then
      bsearchGT events target ((lo + hi) / 2 + 1) hi
    else
      bsearchGT events target lo ((lo + hi) / 2)
  else lo
termination_by hi - lo
decreasing_by
  all_goals simp_wf
  all_goals omega

/-- The event sequence is sorted by time in ascending order. -/
def sortedByTime (events : List RawEvent) : Prop :=
  List.Pairwise (fun a b => a.time ≤ b.time) events

instance (events : List RawEvent) : Decidable (sortedByTime events) :=
  List.instDecidablePairwise events

/-- Modelled from the spec: the last event at or before the target time that
concerns the given key. -/
def lastKeyEvent (events : List RawEvent) (target : ℚ) (k : ℕ) : Option RawEvent :=
  (events.filter (fun e => decide (e.time ≤ target) && (e.key == k))).getLast?

/-- Modelled from the spec: a key is held at the target time when its
governing NoteOn precedes the target while its NoteOff follows it, that is,
the last event for the key at or before the target is a NoteOn. -/
def heldAt (events : List RawEvent) (target : ℚ) (k : ℕ) : Bool :=
  match lastKeyEvent events target k with
  | some e => e.kind == EventKind.noteOn
  | none => false

/-- Keys occurring anywhere in the event sequence, without repetition. -/
def keysOf (events : List RawEvent) : List ℕ :=
  (events.map RawEvent.key).dedup

/-- Keys still held at the target time. -/
def heldKeys (events : List RawEvent) (target : ℚ) : List ℕ :=
  (keysOf events).filter (fun k => heldAt events target k)

/-- Modelled from the spec: reseek(target_time) binary-searches the event
sequence for the first event with time greater than the target, resets the
cursor there, and synthesizes an implicit NoteOff for every key still held
at the target. -/
def reseek (p : MidiPlayer) (target : ℚ) : MidiPlayer × List RawEvent :=
  let idx := bsearchGT p.events target 0 p.events.length
  let offs := (heldKeys p.events target).map
    (fun k => { time := target, kind := EventKind.noteOff, key := k, track := 0 : RawEvent })
  ({ p with
      cursor := idx,
      time := target + p.leadIn,
      playAlong := { p.playAlong with required_keys := lookaheadRequired p.events idx } },
    offs)

/-- Concrete two-event file used as a test fixture, following the spec
scenario with a NoteOn at 0 and a NoteOff at 500 ms for key 60. -/
def demoEvents : List RawEvent :=
  [{ time := 0, kind := EventKind.noteOn, key := 60, track := 0 },
    { time := 1/2, kind := EventKind.noteOff, key := 60, track := 0 }]

/-- Play-along state with nothing required and nothing pressed. -/
def demoPA : PlayAlong :=
  { required_keys := [], pressedUser := fun _ => false, pressedFile := fun _ => false }

/-- Player fixture at the start of the demo file. -/
def demoPlayer : MidiPlayer :=
  { events := demoEvents, cursor := 0, time := 0, leadIn := 0, paused := false,
    playAlong := demoPA }

/-- Player fixture whose committed time is already past end-of-file. -/
def eofPlayer : MidiPlayer := { demoPlayer with time := 1, cursor := 2 }

/-- Scene fixture wrapping the end-of-file player. -/
def eofScene : SceneState := { player := eofPlayer, keyboard := { held := [60] } }

/-- Config fixture: play-along off, unit speed, zero offset. -/
def demoCfg : Config := { play_along := false, speed_multiplier := 1, playback_offset := 0 }

/-- A short burst of speed decrements used as a settings fixture. -/
def demoInputs : List (Bool × KeyboardInput) :=
  [(false, { state := ElementState.Released, virtual_keycode := some VirtualKeyCode.Down }),
    (true, { state := ElementState.Released, virtual_keycode := some VirtualKeyCode.Down }),
    (true, { state := ElementState.Released, virtual_keycode := some VirtualKeyCode.Down })]

theorem settings_step_speed_nonneg (sh : Bool) (cfg : Config) (i : KeyboardInput)
    (h : 0 ≤ cfg.speed_multiplier) :
    0 ≤ (settings_keyboard_input sh cfg i).1.speed_multiplier := by
  have hamt : (0 : ℚ) ≤ if sh then 1/2 else 1/10 := by
    cases sh <;> norm_num
  unfold settings_keyboard_input
  rcases i with ⟨st, vk⟩
  dsimp only
  split
  · exact h
  · cases vk with
    | none => exact h
    | some v =>
      cases v
      case Up => simpa using add_nonneg h hamt
      case Down => simp only; exact le_max_right _ 0
      all_goals simpa using h

theorem settingsRun_speed_nonneg (inputs : List (Bool × KeyboardInput)) :
    ∀ cfg : Config, 0 ≤ cfg.speed_multiplier →
      0 ≤ (settingsRun cfg inputs).speed_multiplier := by
  induction inputs with
  | nil => exact fun cfg h => h
  | cons hd tl ih =>
      intro cfg h
      exact ih _ (settings_step_speed_nonneg hd.1 cfg hd.2 h)

/-- C4: over any sequence of speed and offset adjustment key releases the
speed multiplier is floored at zero on decrement and never becomes negative,
increments are pure unclamped additions, and the playback offset moves
additively with no clamp in either direction. -/
theorem speed_floor_zero_offset_unclamped (cfg : Config)
    (inputs : List (Bool × KeyboardInput)) (h : 0 ≤ cfg.speed_multiplier) :
    0 ≤ (settingsRun cfg inputs).speed_multiplier ∧
    (∀ (sh : Bool) (c : Config),
      (settings_keyboard_input sh c
          { state := ElementState.Released,
            virtual_keycode := some VirtualKeyCode.Up }).1.speed_multiplier
        = c.speed_multiplier + (if sh then (1 : ℚ)/2 else 1/10)) ∧
    (∀ (sh : Bool) (c : Config),
      (settings_keyboard_input sh c
          { state := ElementState.Released,
            virtual_keycode := some VirtualKeyCode.Down }).1.speed_multiplier
        = max (c.speed_multiplier - (if sh then (1 : ℚ)/2 else 1/10)) 0) ∧
    (∀ (sh : Bool) (c : Config),
      (settings_keyboard_input sh c
          { state := ElementState.Released,
            virtual_keycode := some VirtualKeyCode.Minus }).1.playback_offset
        = c.playback_offset - (if sh then (1 : ℚ)/10 else 1/100)) ∧
    (∀ (sh : Bool) (c : Config),
      (settings_keyboard_input sh c
          { state := ElementState.Released,
            virtual_keycode := some VirtualKeyCode.Plus }).1.playback_offset
        = c.playback_offset + (if sh then (1 : ℚ)/10 else 1/100)) ∧
    (∀ (sh : Bool) (c : Config),
      (settings_keyboard_input sh c
          { state := ElementState.Released,
            virtual_keycode := some VirtualKeyCode.Equals }).1.playback_offset
        = c.playback_offset + (if sh then (1 : ℚ)/10 else 1/100)) :=
  ⟨settingsRun_speed_nonneg inputs cfg h,
    fun _ _ => rfl, fun _ _ => rfl, fun _ _ => rfl, fun _ _ => rfl, fun _ _ => rfl⟩

theorem speed_floor_zero_offset_unclamped_witness :
    0 ≤ demoCfg.speed_multiplier ∧ 0 ≤ (settingsRun demoCfg demoInputs).speed_multiplier :=
  ⟨by norm_num [demoCfg],
    (speed_floor_zero_offset_unclamped demoCfg demoInputs (by norm_num [demoCfg])).1⟩

/-- C8: a keyboard input whose element state is not Released, or that has no
virtual keycode, leaves the config untouched and emits no toast. -/
theorem settings_noop_unless_released (sh : Bool) (cfg : Config) (input : KeyboardInput)
    (h : input.state ≠ ElementState.Released ∨ input.virtual_keycode = none) :
    settings_keyboard_input sh cfg input = (cfg, none) := by
  unfold settings_keyboard_input
  rcases h with h | h
  · simp [h]
  · split
    · rfl
    · simp [h]

theorem settings_noop_unless_released_witness :
    ({ state := ElementState.Pressed, virtual_keycode := some VirtualKeyCode.Up } :
        KeyboardInput).state ≠ ElementState.Released ∧
      settings_keyboard_input false demoCfg
        { state := ElementState.Pressed, virtual_keycode := some VirtualKeyCode.Up }
        = (demoCfg, none) :=
  ⟨by decide,
    settings_noop_unless_released false demoCfg
      { state := ElementState.Pressed, virtual_keycode := some VirtualKeyCode.Up }
      (Or.inl (by decide))⟩

/-- C9: on a settings key release the speed step is 0.5 with Shift and 0.1
without, and the offset step is 0.1 with Shift and 0.01 without. -/
theorem settings_step_amounts (c : Config) :
    ((settings_keyboard_input true c
        { state := ElementState.Released,
          virtual_keycode := some VirtualKeyCode.Up }).1.speed_multiplier
      = c.speed_multiplier + 1/2) ∧
    ((settings_keyboard_input false c
        { state := ElementState.Released,
          virtual_keycode := some VirtualKeyCode.Up }).1.speed_multiplier
      = c.speed_multiplier + 1/10) ∧
    ((settings_keyboard_input true c
        { state := ElementState.Released,
          virtual_keycode := some VirtualKeyCode.Down }).1.speed_multiplier
      = max (c.speed_multiplier - 1/2) 0) ∧
    ((settings_keyboard_input false c
        { state := ElementState.Released,
          virtual_keycode := some VirtualKeyCode.Down }).1.speed_multiplier
      = max (c.speed_multiplier - 1/10) 0) ∧
    ((settings_keyboard_input true c
        { state := ElementState.Released,
          virtual_keycode := some VirtualKeyCode.Plus }).1.playback_offset
      = c.playback_offset + 1/10) ∧
    ((settings_keyboard_input false c
        { state := ElementState.Released,
          virtual_keycode := some VirtualKeyCode.Plus }).1.playback_offset
      = c.playback_offset + 1/100) ∧
    ((settings_keyboard_input true c
        { state := ElementState.Released,
          virtual_keycode := some VirtualKeyCode.Minus }).1.playback_offset
      = c.playback_offset - 1/10) ∧
    ((settings_keyboard_input false c
        { state := ElementState.Released,
          virtual_keycode := some VirtualKeyCode.Minus }).1.playback_offset
      = c.playback_offset - 1/100) ∧
    ((settings_keyboard_input true c
        { state := ElementState.Released,
          virtual_keycode := some VirtualKeyCode.Equals }).1.playback_offset
      = c.playback_offset + 1/10) ∧
    ((settings_keyboard_input false c
        { state := ElementState.Released,
          virtual_keycode := some VirtualKeyCode.Equals }).1.playback_offset
      = c.playback_offset + 1/100) :=
  ⟨rfl, rfl, rfl, rfl, rfl, rfl, rfl, rfl, rfl, rfl⟩

/-- C5: the playback offset only shifts the time handed to the waterfall
renderer; the player state reached by a tick and the dispatched events are
identical for every offset value. -/
theorem offset_only_affects_notes_time (cfg : Config) (o w : ℚ) (s : SceneState)
    (delta : ℚ) :
    ((sceneUpdate { cfg with playback_offset := o } w s delta).1.player =
        (sceneUpdate cfg w s delta).1.player) ∧
    ((sceneUpdate { cfg with playback_offset := o } w s delta).2.dispatched =
        (sceneUpdate cfg w s delta).2.dispatched) ∧
    ((sceneUpdate cfg w s delta).2.notesTime =
        (sceneUpdate cfg w s delta).1.player.time_without_lead_in + cfg.playback_offset) :=
  ⟨rfl, rfl, rfl⟩

/-- C6: a user MIDI NoteOn for key k performs exactly one press_key call with
source User and is_down true, a NoteOff exactly one with is_down false, and
the handler changes no player state besides the play-along key state. -/
theorem midi_event_press_key_exactly (s : SceneState) (ch k : ℕ) :
    ((midi_event s (MidiEvent.noteOn ch k)).2.pressKeyCalls
        = [(KeyPressSource.User, k, true)]) ∧
    ((midi_event s (MidiEvent.noteOn ch k)).1.player.playAlong
        = press_key s.player.playAlong KeyPressSource.User k true) ∧
    ((midi_event s (MidiEvent.noteOn ch k)).1.player.events = s.player.events) ∧
    ((midi_event s (MidiEvent.noteOn ch k)).1.player.cursor = s.player.cursor) ∧
    ((midi_event s (MidiEvent.noteOn ch k)).1.player.time = s.player.time) ∧
    ((midi_event s (MidiEvent.noteOn ch k)).1.player.leadIn = s.player.leadIn) ∧
    ((midi_event s (MidiEvent.noteOn ch k)).1.player.paused = s.player.paused) ∧
    ((midi_event s (MidiEvent.noteOff ch k)).2.pressKeyCalls
        = [(KeyPressSource.User, k, false)]) ∧
    ((midi_event s (MidiEvent.noteOff ch k)).1.player.playAlong
        = press_key s.player.playAlong KeyPressSource.User k false) ∧
    ((midi_event s (MidiEvent.noteOff ch k)).1.player.events = s.player.events) ∧
    ((midi_event s (MidiEvent.noteOff ch k)).1.player.cursor = s.player.cursor) ∧
    ((midi_event s (MidiEvent.noteOff ch k)).1.player.time = s.player.time) ∧
    ((midi_event s (MidiEvent.noteOff ch k)).1.player.leadIn = s.player.leadIn) ∧
    ((midi_event s (MidiEvent.noteOff ch k)).1.player.paused = s.player.paused) :=
  ⟨rfl, rfl, rfl, rfl, rfl, rfl, rfl, rfl, rfl, rfl, rfl, rfl, rfl, rfl⟩

/-- C1: on a tick the player is updated, and its events dispatched to the
keyboard, exactly when play-along is disabled or every currently required
key is effectively pressed; when play-along is on and some required key is
unpressed the player update is not invoked, so committed time and cursor are
unchanged and nothing is dispatched. -/
theorem update_gates_player_on_play_along (cfg : Config) (w : ℚ) (s : SceneState)
    (delta : ℚ) :
    ((sceneUpdate cfg w s delta).2.playerUpdated = true ↔
      (cfg.play_along = false ∨
        ∀ k ∈ s.player.playAlong.required_keys,
          effectivelyPressed s.player.playAlong k = true)) ∧
    ((sceneUpdate cfg w s delta).2.dispatched =
      if are_required_keys_pressed s.player.playAlong || !cfg.play_along then
        (s.player.update cfg delta).2
      else none) ∧
    (cfg.play_along = true →
      (∃ k ∈ s.player.playAlong.required_keys,
          effectivelyPressed s.player.playAlong k = false) →
      (sceneUpdate cfg w s delta).1.player = s.player ∧
        (sceneUpdate cfg w s delta).2.dispatched = none) := by
  have hgatebool : ∀ hpa : cfg.play_along = true,
      ∀ hreq : ∃ k ∈ s.player.playAlong.required_keys,
        effectivelyPressed s.player.playAlong k = false,
      (are_required_keys_pressed s.player.playAlong || !cfg.play_along) = false := by
    intro hpa hreq
    obtain ⟨k, hk, hfalse⟩ := hreq
    simp only [hpa, Bool.not_true, Bool.or_false, are_required_keys_pressed,
      List.all_eq_false]
    exact ⟨k, hk, by simp [hfalse]⟩
  refine ⟨?_, ?_, ?_⟩
  · have hpu : (sceneUpdate cfg w s delta).2.playerUpdated =
        (are_required_keys_pressed s.player.playAlong || !cfg.play_along) := rfl
    rw [hpu]
    simp only [Bool.or_eq_true, Bool.not_eq_true', are_required_keys_pressed,
      List.all_eq_true]
    tauto
  · have hd : (sceneUpdate cfg w s delta).2.dispatched = (gatedStep cfg s delta).2.2 := rfl
    rw [hd]
    unfold gatedStep
    rcases hu : s.player.update cfg delta with ⟨p, evs⟩
    cases hb : (are_required_keys_pressed s.player.playAlong || !cfg.play_along) with
    | false => simp [hb]
    | true => cases evs <;> simp [hb]
  · intro hpa hreq
    have hg := hgatebool hpa hreq
    have h1 : (sceneUpdate cfg w s delta).1.player = (gatedStep cfg s delta).1 := rfl
    have h2 : (sceneUpdate cfg w s delta).2.dispatched = (gatedStep cfg s delta).2.2 := rfl
    rw [h1, h2]
    unfold gatedStep
    rw [hg]
    exact ⟨rfl, rfl⟩

/-- Play-along state requiring key 60 with nothing pressed. -/
def gatedPA : PlayAlong :=
  { required_keys := [60], pressedUser := fun _ => false, pressedFile := fun _ => false }

/-- Player fixture blocked on key 60. -/
def gatedPlayer : MidiPlayer := { demoPlayer with playAlong := gatedPA }

/-- Scene fixture wrapping the blocked player. -/
def gatedScene : SceneState := { player := gatedPlayer, keyboard := { held := [] } }

/-- Config fixture with play-along enabled. -/
def gatedCfg : Config := { play_along := true, speed_multiplier := 1, playback_offset := 0 }

theorem update_gates_player_on_play_along_witness :
    (sceneUpdate gatedCfg 100 gatedScene 1).1.player = gatedScene.player ∧
      (sceneUpdate gatedCfg 100 gatedScene 1).2.dispatched = none :=
  (update_gates_player_on_play_along gatedCfg 100 gatedScene 1).2.2 rfl
    ⟨60, by decide, by decide⟩

/-- C3: when the gate is open and the player update returns none, the scene
resets the keyboard highlighting to idle and dispatches no events. -/
theorem update_none_resets_keyboard (cfg : Config) (w : ℚ) (s : SceneState) (delta : ℚ)
    (hgate : (are_required_keys_pressed s.player.playAlong || !cfg.play_along) = true)
    (hnone : (s.player.update cfg delta).2 = none) :
    (sceneUpdate cfg w s delta).1.keyboard = reset_notes s.keyboard ∧
      (sceneUpdate cfg w s delta).2.dispatched = none := by
  have h1 : (sceneUpdate cfg w s delta).1.keyboard = (gatedStep cfg s delta).2.1 := rfl
  have h2 : (sceneUpdate cfg w s delta).2.dispatched = (gatedStep cfg s delta).2.2 := rfl
  rcases hu : s.player.update cfg delta with ⟨p, evs⟩
  rw [hu] at hnone
  cases evs with
  | none =>
      rw [h1, h2]
      unfold gatedStep
      rw [hu, hgate]
      exact ⟨rfl, rfl⟩
  | some evs => simp at hnone

theorem update_none_resets_keyboard_witness :
    (eofScene.player.update demoCfg 1).2 = none ∧
      (sceneUpdate demoCfg 100 eofScene 1).1.keyboard = reset_notes eofScene.keyboard :=
  ⟨by norm_num [MidiPlayer.update, MidiPlayer.time_without_lead_in, totalDuration,
      eofScene, eofPlayer, demoPlayer, demoEvents, demoCfg],
    (update_none_resets_keyboard demoCfg 100 eofScene 1 (by decide)
      (by norm_num [MidiPlayer.update, MidiPlayer.time_without_lead_in, totalDuration,
        eofScene, eofPlayer, demoPlayer, demoEvents, demoCfg])).1⟩

/-- C7: every update tick writes a single progress quad anchored at the
origin, of width window width times the player percentage and height 5. -/
theorem progressbar_quad_each_tick (cfg : Config) (w : ℚ) (s : SceneState) (delta : ℚ) :
    (sceneUpdate cfg w s delta).2.progressQuads =
      [{ position := (0, 0),
          size := (w * (sceneUpdate cfg w s delta).1.player.percentage, 5) }] :=
  rfl

/-- C10: every update tick refreshes the progress bar, the waterfall at the
current player time plus the offset, the keyboard renderer and the toast
manager, whether or not the play-along gate blocked advancement. -/
theorem update_refreshes_renderers_always (cfg : Config) (w : ℚ) (s : SceneState)
    (delta : ℚ) :
    ((sceneUpdate cfg w s delta).2.progressQuads =
        update_progresbar w (sceneUpdate cfg w s delta).1.player) ∧
    ((sceneUpdate cfg w s delta).2.notesTime =
        (sceneUpdate cfg w s delta).1.player.time_without_lead_in + cfg.playback_offset) ∧
    ((sceneUpdate cfg w s delta).2.keyboardRendererUpdated = true) ∧
    ((sceneUpdate cfg w s delta).2.toastManagerUpdated = true) :=
  ⟨rfl, rfl, rfl, rfl⟩

theorem bsearchGT_stop (events : List RawEvent) (target : ℚ) {lo hi : ℕ}
    (h : ¬ lo < hi) : bsearchGT events target lo hi = lo := by
  unfold bsearchGT
  exact dif_neg h

theorem sorted_timeAt_mono {events : List RawEvent} (hs : sortedByTime events)
    {i j : ℕ} (hij : i ≤ j) (hj : j < events.length) :
    timeAt events i ≤ timeAt events j := by
  rcases Nat.eq_or_lt_of_le hij with rfl | hlt
  · exact le_refl _
  · have hi : i < events.length := Nat.lt_trans hlt hj
    have hrel := List.pairwise_iff_get.mp hs ⟨i, hi⟩ ⟨j, hj⟩ hlt
    unfold timeAt
    rw [List.getD_eq_getElem _ _ hi, List.getD_eq_getElem _ _ hj]
    simpa using hrel

theorem bsearchGT_spec (events : List RawEvent) (target : ℚ) (hs : sortedByTime events) :
    ∀ (n lo hi : ℕ), hi - lo ≤ n → lo ≤ hi → hi ≤ events.length →
      (∀ j, j < lo → timeAt events j ≤ target) →
      (∀ j, hi ≤ j → j < events.length → target < timeAt events j) →
      (∀ j, j < bsearchGT events target lo hi → timeAt events j ≤ target) ∧
      (∀ j, bsearchGT events target lo hi ≤ j → j < events.length →
        target < timeAt events j) := by
  intro n
  induction n with
  | zero =>
      intro lo hi hn hlh hlen hlo hhi
      rw [bsearchGT_stop events target (by omega)]
      exact ⟨hlo, fun j hj hjlen => hhi j (by omega) hjlen⟩
  | succ n ih =>
      intro lo hi hn hlh hlen hlo hhi
      by_cases hlt : lo < hi
      · unfold bsearchGT
        rw [dif_pos hlt]
        by_cases hmid : timeAt events ((lo + hi) / 2) ≤ target
        · rw [if_pos hmid]
          refine ih ((lo + hi) / 2 + 1) hi (by omega) (by omega) hlen ?_ hhi
          intro j hj
          exact le_trans (sorted_timeAt_mono hs (by omega) (by omega)) hmid
        · rw [if_neg hmid]
          refine ih lo ((lo + hi) / 2) (by omega) (by omega) (by omega) hlo ?_
          intro j hj hjlen
          exact lt_of_lt_of_le (lt_of_not_le hmid) (sorted_timeAt_mono hs hj hjlen)
      · rw [bsearchGT_stop events target hlt]
        exact ⟨hlo, fun j hj hjlen => hhi j (by omega) hjlen⟩

theorem heldAt_mem_keysOf {events : List RawEvent} {target : ℚ} {k : ℕ}
    (h : heldAt events target k = true) : k ∈ keysOf events := by
  unfold heldAt lastKeyEvent at h
  rcases hl : (events.filter (fun e => decide (e.time ≤ target) && (e.key == k))).getLast?
    with _ | e
  · rw [hl] at h
    simp at h
  · have hmem := List.mem_of_getLast?_eq_some hl
    obtain ⟨he, hpred⟩ := List.mem_filter.mp hmem
    have hk : e.key = k := by
      simpa using ((Bool.and_eq_true _ _).mp hpred).right
    exact List.mem_dedup.mpr (List.mem_map.mpr ⟨e, he, hk⟩)

/-- C2: reseek resets the cursor to the first index whose event time exceeds
the target (every earlier event is at or before the target, every event from
the cursor on is strictly after it), and synthesizes an implicit NoteOff for
exactly the keys whose governing NoteOn precedes the target while the
matching NoteOff follows it, so no seek leaves a key rendered as held. -/
theorem reseek_first_index_and_implicit_offs (p : MidiPlayer) (target : ℚ)
    (hs : sortedByTime p.events) :
    ((reseek p target).1.cursor = bsearchGT p.events target 0 p.events.length) ∧
    (∀ j, j < (reseek p target).1.cursor → timeAt p.events j ≤ target) ∧
    (∀ j, (reseek p target).1.cursor ≤ j → j < p.events.length →
      target < timeAt p.events j) ∧
    (∀ k, ({ time := target, kind := EventKind.noteOff, key := k, track := 0 } : RawEvent)
        ∈ (reseek p target).2 ↔ heldAt p.events target k = true) ∧
    (∀ e, e ∈ (reseek p target).2 → e.kind = EventKind.noteOff) := by
  have hcur : (reseek p target).1.cursor = bsearchGT p.events target 0 p.events.length := rfl
  have hoffs : (reseek p target).2 = (heldKeys p.events target).map
      (fun k => { time := target, kind := EventKind.noteOff, key := k, track := 0 }) := rfl
  have hspec := bsearchGT_spec p.events target hs p.events.length 0 p.events.length
    (by omega) (by omega) (le_refl _)
    (fun j hj => (Nat.not_lt_zero j hj).elim)
    (fun j hj hjlen => ((Nat.not_lt.mpr hj) hjlen).elim)
  refine ⟨hcur, ?_, ?_, ?_, ?_⟩
  · rw [hcur]
    exact hspec.1
  · rw [hcur]
    exact hspec.2
  · intro k
    rw [hoffs]
    constructor
    · intro hmem
      obtain ⟨a, ha, hfa⟩ := List.mem_map.mp hmem
      obtain ⟨hamem, hheld⟩ := List.mem_filter.mp ha
      have hak : a = k := congrArg RawEvent.key hfa
      rw [hak] at hheld
      exact hheld
    · intro hheld
      exact List.mem_map.mpr ⟨k, List.mem_filter.mpr ⟨heldAt_mem_keysOf hheld, hheld⟩, rfl⟩
  · intro e hmem
    rw [hoffs] at hmem
    obtain ⟨a, ha, hfa⟩ := List.mem_map.mp hmem
    subst hfa
    rfl

/-- Event fixture with a NoteOn at 0 and its NoteOff at 5 for key 60. -/
def seekEvents : List RawEvent :=
  [{ time := 0, kind := EventKind.noteOn, key := 60, track := 0 },
    { time := 5, kind := EventKind.noteOff, key := 60, track := 0 }]

/-- Player fixture walking the seek fixture file. -/
def seekPlayer : MidiPlayer :=
  { events := seekEvents, cursor := 0, time := 0, leadIn := 0, paused := false,
    playAlong := demoPA }

theorem reseek_first_index_and_implicit_offs_witness :
    sortedByTime seekPlayer.events ∧
      ({ time := 3, kind := EventKind.noteOff, key := 60, track := 0 } : RawEvent)
        ∈ (reseek seekPlayer 3).2 := by
  have hs : sortedByTime seekPlayer.events := by
    norm_num [sortedByTime, seekPlayer, seekEvents, List.pairwise_cons]
  refine ⟨hs, ((reseek_first_index_and_implicit_offs seekPlayer 3 hs).2.2.2.1 60).mpr ?_⟩
  norm_num [heldAt, lastKeyEvent, seekPlayer, seekEvents, List.filter_cons]
